import Mathlib

/-!
Verification of the `windows-capture` Python bindings
(`src/windows-capture-python/windows_capture/__init__.py` and the historical
revision `src/Python/WindowsCapture/main.py`) against its natural-language
specification.

The Python code is shallowly embedded: byte buffers are `List ℕ`, numpy
integer slicing `l[a:b]` (for nonnegative bounds, the only ones the claims
use) is `pySlice`, `numpy.reshape(h, w)` of a flat buffer is `chunkRows`,
optional Python attributes are `Option`, and code that can `raise` returns
`Except String`.  Pixel channel values are modelled as `ℚ` (exact rationals
standing in for the uint8 / float16 values; uint8 channels are the integers
0..255 inside `ℚ`).
-/

namespace WindowsCaptureSpec

/-- Python / numpy basic slice `l[a:b]` for nonnegative `a`, `b`:
clamped, never raising, empty when `b ≤ a`. -/
def pySlice (a b : ℕ) (l : List α) : List α := (l.drop a).take (b - a)

/-- Semantics of `numpy.reshape(h, w)` applied to a flat buffer (and of
`numpy.ctypeslib.as_array` with shape `(h, w)`): row `r` holds the
elements at flat indices `[r*w, (r+1)*w)`. -/
def chunkRows (h w : ℕ) (l : List α) : List (List α) :=
  match h with
  | 0 => []
  | h' + 1 => l.take w :: chunkRows h' w (l.drop w)

theorem chunkRows_length (h w : ℕ) (l : List α) : (chunkRows h w l).length = h := by
  induction h generalizing l with
  | zero => rfl
  | succ h' ih => simp [chunkRows, ih]

theorem chunkRows_getElem? (h w : ℕ) (l : List α) (r : ℕ) (hr : r < h) :
    (chunkRows h w l)[r]? = some ((l.drop (r * w)).take w) := by
  induction h generalizing l r with
  | zero => omega
  | succ h' ih =>
    cases r with
    | zero => simp [chunkRows]
    | succ r' =>
      have hr' : r' < h' := by omega
      have : (l.drop w).drop (r' * w) = l.drop ((r' + 1) * w) := by
        rw [List.drop_drop]
        congr 1
        ring
      simp only [chunkRows, List.getElem?_cons_succ, ih (l.drop w) r' hr', this]

theorem chunkRows_flatten (h w : ℕ) (l : List α) (hl : l.length = h * w) :
    (chunkRows h w l).flatten = l := by
  induction h generalizing l with
  | zero =>
    simp [chunkRows]
    have : l.length = 0 := by omega
    exact List.length_eq_zero.mp this
  | succ h' ih =>
    have hdrop : (l.drop w).length = h' * w := by
      rw [List.length_drop]
      have : l.length = h' * w + w := by rw [hl]; ring
      omega
    simp only [chunkRows, List.flatten_cons, ih (l.drop w) hdrop, List.take_append_drop]

/-- A registered Python callback: modelled by its `__name__` together with an
identity tag (so distinct functions with the same name stay distinguishable). -/
structure Handler where
  name : String
  tag : ℕ
deriving DecidableEq

/-- Class `Frame` of `windows_capture/__init__.py`: a numpy pixel grid
(`height × width × channels`, each channel a byte) together with the
`width`, `height` and `timespan` attributes.  `width`/`height` are `ℤ`
because `crop` stores the Python difference `end - start`, which can be
negative. -/
structure Frame where
  frame_buffer : List (List (List ℕ))
  width : ℤ
  height : ℤ
  timespan : ℤ
deriving DecidableEq

/-- `Frame.convert_to_bgr`: `self.frame_buffer[:, :, :3]`, keeping the first
three channels of every pixel, wrapped in a new `Frame`. -/
def Frame.convert_to_bgr (f : Frame) : Frame :=
  { frame_buffer := f.frame_buffer.map (fun row => row.map (fun p => p.take 3))
    width := f.width
    height := f.height
    timespan := f.timespan }

/-- `Frame.crop(start_width, start_height, end_width, end_height)`:
`self.frame_buffer[start_height:end_height, start_width:end_width, :]`
wrapped in a new `Frame` with `width = end_width - start_width` and
`height = end_height - start_height`.  No bounds are validated; numpy
slicing clamps.  Modelled for nonnegative Python indices. -/
def Frame.crop (f : Frame) (start_width start_height end_width end_height : ℕ) : Frame :=
  { frame_buffer :=
      (pySlice start_height end_height f.frame_buffer).map (pySlice start_width end_width)
    width := (end_width : ℤ) - (start_width : ℤ)
    height := (end_height : ℤ) - (start_height : ℤ)
    timespan := f.timespan }

/-- Pixel lookup in a `height × width` grid. -/
def pixelAt (g : List (List α)) (r c : ℕ) : Option α := (g[r]?).bind (fun row => row[c]?)

/-- State of a `WindowsCapture` object: the two handler slots plus the
arguments forwarded to `NativeWindowsCapture` by `__init__`. -/
structure WCState where
  frame_handler : Option Handler
  closed_handler : Option Handler
  cursor_capture : Option Bool
  draw_border : Option Bool
  secondary_window : Option Bool
  minimum_update_interval : Option ℤ
  dirty_region : Option Bool
  monitor_index : Option ℤ
  window_name : Option String
  window_hwnd : Option ℤ
deriving DecidableEq

namespace WindowsCapture

/-- `WindowsCapture.__init__`: clears `monitor_index` whenever a window
target (`window_name` or `window_hwnd`) is given, initialises both handler
slots to `None`, and forwards the arguments to `NativeWindowsCapture`.
It contains no `raise`, so the embedding always returns `Except.ok`. -/
def init (cursor_capture draw_border secondary_window : Option Bool)
    (minimum_update_interval : Option ℤ) (dirty_region : Option Bool)
    (monitor_index : Option ℤ) (window_name : Option String)
    (window_hwnd : Option ℤ) : Except String WCState :=
  let monitor_index :=
    if window_name.isSome || window_hwnd.isSome then none else monitor_index
  Except.ok
    { frame_handler := none
      closed_handler := none
      cursor_capture := cursor_capture
      draw_border := draw_border
      secondary_window := secondary_window
      minimum_update_interval := minimum_update_interval
      dirty_region := dirty_region
      monitor_index := monitor_index
      window_name := window_name
      window_hwnd := window_hwnd }

/-- `WindowsCapture.start`: raises unless both handlers are set, then calls
`self.capture.start()`.  `Except.ok` marks that the native capture was
started; `Except.error` is raised before it, and the state (a plain
argument of this pure function) is left untouched. -/
def start (s : WCState) : Except String Unit :=
  if s.frame_handler = none then
    Except.error "on_frame_arrived Event Handler Is Not Set"
  else if s.closed_handler = none then
    Except.error "on_closed Event Handler Is Not Set"
  else
    Except.ok ()

/-- `WindowsCapture.start_free_threaded`: same eager handler check as
`start`, then starts the native capture on a dedicated thread and wraps the
native control in a `CaptureControl`.  The native control object is out of
scope here and abstracted as `Unit`. -/
def startFreeThreaded (s : WCState) : Except String Unit :=
  if s.frame_handler = none then
    Except.error "on_frame_arrived Event Handler Is Not Set"
  else if s.closed_handler = none then
    Except.error "on_closed Event Handler Is Not Set"
  else
    Except.ok ()

/-- `WindowsCapture.event`: dispatches on the handler's `__name__`,
setting exactly the matching slot, and raises for any other name.  On a
raise no state is produced, so the object is unchanged. -/
def event (s : WCState) (h : Handler) : Except String WCState :=
  if h.name = "on_frame_arrived" then
    Except.ok { s with frame_handler := some h }
  else if h.name = "on_closed" then
    Except.ok { s with closed_handler := some h }
  else
    Except.error "Invalid Event Handler Use on_frame_arrived Or on_closed"

/-- The pixel grid built by `WindowsCapture.on_frame_arrived`: the raw
buffer viewed as `(height, row_pitch)`, each row truncated to the first
`width*4` bytes, then reshaped to `(height, width, 4)`.  When
`row_pitch = width*4` this coincides with the direct
`as_array(shape=(height, width, 4))` of the contiguous branch. -/
def pixelGrid (buf : List ℕ) (height width row_pitch : ℕ) : List (List (List ℕ)) :=
  (chunkRows height row_pitch buf).map (fun row => chunkRows width 4 (row.take (width * 4)))

/-- `WindowsCapture.on_frame_arrived`: raises when no frame handler is
registered; otherwise computes `row_pitch = int(buf_len / height)` and
invokes `self.frame_handler` — once in the contiguous branch
(`row_pitch == width * 4`), and twice (with the same `Frame`) in the
padded branch.  The returned list records, in order, the frames of the
`frame_handler` invocations actually made. -/
def onFrameArrived (s : WCState) (buf : List ℕ) (buf_len width height timespan : ℕ) :
    Except String (List Frame) :=
  if s.frame_handler.isSome then
    let row_pitch := buf_len / height
    if row_pitch = width * 4 then
      Except.ok [{ frame_buffer := pixelGrid buf height width row_pitch
                   width := (width : ℤ), height := (height : ℤ), timespan := (timespan : ℤ) }]
    else
      let frame : Frame :=
        { frame_buffer := pixelGrid buf height width row_pitch
          width := (width : ℤ), height := (height : ℤ), timespan := (timespan : ℤ) }
      Except.ok [frame, frame]
  else
    Except.error "on_frame_arrived Event Handler Is Not Set"

end WindowsCapture

/-- Class `DxgiDuplicationFrame`: the native frame's raw byte buffer plus
its dimension / format metadata. -/
structure DxgiDuplicationFrame where
  buffer : List ℕ
  width : ℕ
  height : ℕ
  bytes_per_pixel : ℕ
  bytes_per_row : ℕ
  color_format : String
deriving DecidableEq

namespace DxgiDuplicationFrame

/-- `DxgiDuplicationFrame._raw_buffer`: the raw bytes reshaped to
`(height, bytes_per_row)` — padding included. -/
def rawBuffer (f : DxgiDuplicationFrame) : List (List ℕ) :=
  chunkRows f.height f.bytes_per_row f.buffer

/-- The row truncation performed by `DxgiDuplicationFrame.to_numpy`:
`self._raw_buffer()[:, : self.width * self.bytes_per_pixel]`, dropping the
trailing pad bytes of every row before any reshape. -/
def exposedRows (f : DxgiDuplicationFrame) : List (List ℕ) :=
  (rawBuffer f).map (fun row => row.take (f.width * f.bytes_per_pixel))

/-- `DxgiDuplicationFrame.to_bytes`: `bytes(self._raw_buffer())`, i.e. the
raw reshaped buffer flattened back to a flat byte string — note this is the
raw buffer, padding and all, not the truncated `to_numpy` view. -/
def to_bytes (f : DxgiDuplicationFrame) : List ℕ :=
  (rawBuffer f).flatten

/-- The per-channel conversion of the `rgba16f` branch of `to_bgr`:
`numpy.clip(·, 0.0, 1.0) * 255.0` followed by `astype(numpy.uint8)`
(a C cast, truncating toward zero — after the clip the value is
nonnegative, so truncation is `⌊·⌋`).  Channel values are modelled in `ℚ`. -/
def clampScale (x : ℚ) : ℚ := ((⌊(min 1 (max 0 x)) * 255⌋ : ℤ) : ℚ)

/-- The per-pixel action of `DxgiDuplicationFrame.to_bgr` on one pixel of
the `to_numpy` image (a length-4 channel list):
`image[..., :3]` for `bgra8`, the fancy-index permutation
`image[..., [2, 1, 0]]` for `rgba8`, and clamp/scale/truncate after the
same permutation for the remaining (`rgba16f`) branch. -/
def bgrPixel (fmt : String) (p : List ℚ) : List ℚ :=
  if fmt = "bgra8" then p.take 3
  else if fmt = "rgba8" then [p.getD 2 0, p.getD 1 0, p.getD 0 0]
  else [clampScale (p.getD 2 0), clampScale (p.getD 1 0), clampScale (p.getD 0 0)]

/-- `DxgiDuplicationFrame.to_bgr` as a map over the `(height, width, 4)`
image returned by `to_numpy` (which is what lines 369–379 operate on). -/
def to_bgr (fmt : String) (image : List (List (List ℚ))) : List (List (List ℚ)) :=
  image.map (fun row => row.map (bgrPixel fmt))

end DxgiDuplicationFrame

/-- State of a `Capture` object of the historical revision
`src/Python/WindowsCapture/main.py`: handler slots, the two boolean flags
passed to `NativeWindowsCapture` (its first two positional arguments), and
the two instance attributes. -/
structure CaptureLegacy where
  frame_handler : Option Handler
  closed_handler : Option Handler
  native_flags : Bool × Bool
  capture_cursor : Bool
  draw_border : Bool
deriving DecidableEq

/-- `Capture.__init__` of `main.py`: constructs the native engine with the
literal flags `(True, False)` and stores the constructor arguments as
attributes. -/
def Capture.init (capture_cursor draw_border : Bool) : CaptureLegacy :=
  { frame_handler := none
    closed_handler := none
    native_flags := (true, false)
    capture_cursor := capture_cursor
    draw_border := draw_border }

/-! ### Concrete sample data used by witnesses and counterexamples -/

/-- A `WCState` with both callback roles registered and no optional
configuration set. -/
def handlersSet : WCState :=
  { frame_handler := some ⟨"on_frame_arrived", 0⟩
    closed_handler := some ⟨"on_closed", 1⟩
    cursor_capture := none, draw_border := none, secondary_window := none
    minimum_update_interval := none, dirty_region := none
    monitor_index := none, window_name := none, window_hwnd := none }

/-- A `WCState` with no handlers registered and no configuration set. -/
def emptyState : WCState :=
  { frame_handler := none, closed_handler := none
    cursor_capture := none, draw_border := none, secondary_window := none
    minimum_update_interval := none, dirty_region := none
    monitor_index := none, window_name := none, window_hwnd := none }

/-- A 4×4 BGRA frame whose pixel at row `r`, column `c` is
`[10*r + c, 0, 0, 255]`. -/
def sample4x4 : Frame :=
  { frame_buffer :=
      (List.range 4).map (fun r => (List.range 4).map (fun c => [10 * r + c, 0, 0, 255]))
    width := 4, height := 4, timespan := 7 }

/-- A 1×1 duplication frame with `bytes_per_row = 8` but only
`width * bytes_per_pixel = 4` payload bytes per row (4 pad bytes `9`). -/
def padFrame : DxgiDuplicationFrame :=
  { buffer := [1, 2, 3, 4, 9, 9, 9, 9], width := 1, height := 1
    bytes_per_pixel := 4, bytes_per_row := 8, color_format := "bgra8" }

/-- A contiguous 1×2 duplication frame (`bytes_per_row = width * bpp`). -/
def contigFrame : DxgiDuplicationFrame :=
  { buffer := [1, 2, 3, 4, 5, 6, 7, 8], width := 2, height := 1
    bytes_per_pixel := 4, bytes_per_row := 8, color_format := "bgra8" }

/-- The 2×2 solid-color BGRA8 image of the spec's example: every pixel
stored as bytes `(0, 0, 255, 255)`. -/
def img2x2 : List (List (List ℚ)) :=
  [[[0, 0, 255, 255], [0, 0, 255, 255]], [[0, 0, 255, 255], [0, 0, 255, 255]]]

/-! ### C10 — historical `Capture.__init__` hard-codes the native flags -/

/-- C10: in the historical revision `main.py`, `Capture.__init__` always
constructs the native engine with the hard-coded flags `(True, False)`,
independently of the `capture_cursor` / `draw_border` arguments, which are
merely stored as attributes. -/
theorem capture_init_hardcodes_native_flags :
    ∀ cc db cc' db' : Bool,
      (Capture.init cc db).native_flags = (true, false) ∧
      (Capture.init cc db).native_flags = (Capture.init cc' db').native_flags ∧
      (Capture.init cc db).capture_cursor = cc ∧
      (Capture.init cc db).draw_border = db ∧
      (Capture.init cc db).frame_handler = none ∧
      (Capture.init cc db).closed_handler = none :=
  fun _ _ _ _ => ⟨rfl, rfl, rfl, rfl, rfl, rfl⟩

/-! ### C5 — eager handler check in `start` / `start_free_threaded` -/

/-- C5: `start` and `start_free_threaded` fail (with the handler-not-set
error) exactly when at least one of the two callback roles is missing; the
check precedes the native start (an `ok` result marks the native capture
having been started), the state is a plain argument the check never
modifies, and once both handlers are registered a retried start succeeds. -/
theorem start_fails_iff_handler_missing :
    ∀ s : WCState,
      ((WindowsCapture.start s).isOk = true ↔
        s.frame_handler ≠ none ∧ s.closed_handler ≠ none) ∧
      ((WindowsCapture.startFreeThreaded s).isOk = true ↔
        s.frame_handler ≠ none ∧ s.closed_handler ≠ none) ∧
      (∀ hf hc : Handler,
        (WindowsCapture.start
          { s with frame_handler := some hf, closed_handler := some hc }).isOk = true) := by
  intro s
  refine ⟨?_, ?_, fun hf hc => rfl⟩ <;>
    rcases h1 : s.frame_handler with _ | f <;>
      rcases h2 : s.closed_handler with _ | c <;>
        simp [WindowsCapture.start, WindowsCapture.startFreeThreaded, h1, h2, Except.isOk, Except.toBool]

/-! ### C9 — handler registration by declared role name -/

/-- C9: `event` succeeds exactly when the handler's `__name__` is
`on_frame_arrived` or `on_closed`; in the first case only the frame slot is
set, in the second only the closed slot, and for any other name the call
raises and produces no new state (so both slots are untouched). -/
theorem event_registers_by_name :
    ∀ (s : WCState) (h : Handler),
      ((WindowsCapture.event s h).isOk = true ↔
        h.name = "on_frame_arrived" ∨ h.name = "on_closed") ∧
      (h.name = "on_frame_arrived" →
        WindowsCapture.event s h = Except.ok { s with frame_handler := some h }) ∧
      (h.name = "on_closed" →
        WindowsCapture.event s h = Except.ok { s with closed_handler := some h }) ∧
      (h.name ≠ "on_frame_arrived" → h.name ≠ "on_closed" →
        WindowsCapture.event s h =
          Except.error "Invalid Event Handler Use on_frame_arrived Or on_closed") := by
  intro s h
  by_cases e1 : h.name = "on_frame_arrived" <;> by_cases e2 : h.name = "on_closed" <;>
    simp [WindowsCapture.event, e1, e2, Except.isOk, Except.toBool]

/-- Witness for C9 at concrete inputs: registering a handler named
`on_frame_arrived` on the empty state sets exactly the frame slot, and a
handler with an unrecognized name is rejected. -/
theorem event_registers_by_name_witness :
    WindowsCapture.event emptyState ⟨"on_frame_arrived", 5⟩ =
      Except.ok { emptyState with frame_handler := some ⟨"on_frame_arrived", 5⟩ } ∧
    WindowsCapture.event emptyState ⟨"bogus", 6⟩ =
      Except.error "Invalid Event Handler Use on_frame_arrived Or on_closed" :=
  ⟨(event_registers_by_name emptyState ⟨"on_frame_arrived", 5⟩).2.1 rfl,
   (event_registers_by_name emptyState ⟨"bogus", 6⟩).2.2.2 (by decide) (by decide)⟩

/-! ### C2 — multiple target selectors do not raise; the monitor index is
silently cleared -/

/-- C2 (counterexample): constructing with both a monitor index and a
window name does not fail with a configuration error — `__init__` returns
normally, silently dropping the monitor index. -/
theorem init_both_selectors_no_error :
    WindowsCapture.init (some true) none none none none (some 0) (some "OS") none =
      Except.ok
        { frame_handler := none, closed_handler := none, cursor_capture := some true
          draw_border := none, secondary_window := none, minimum_update_interval := none
          dirty_region := none, monitor_index := none, window_name := some "OS"
          window_hwnd := none } := rfl

/-- C2 (amended): whenever a window target (`window_name` or `window_hwnd`)
is supplied, construction succeeds with `monitor_index` cleared to `None`
and every other argument forwarded unchanged; no error is raised. -/
theorem init_clears_monitor_for_window_target
    (cc db sw : Option Bool) (mui : Option ℤ) (dr : Option Bool)
    (mi : Option ℤ) (wn : Option String) (wh : Option ℤ)
    (hw : wn.isSome = true ∨ wh.isSome = true) :
    WindowsCapture.init cc db sw mui dr mi wn wh =
      Except.ok
        { frame_handler := none, closed_handler := none, cursor_capture := cc
          draw_border := db, secondary_window := sw, minimum_update_interval := mui
          dirty_region := dr, monitor_index := none, window_name := wn
          window_hwnd := wh } := by
  have hcond : (wn.isSome || wh.isSome) = true := by
    rcases hw with h | h <;> simp [h]
  simp [WindowsCapture.init, hcond]

/-- Witness for C2's amended claim: a monitor index together with a window
handle yields a successful construction with the monitor index cleared. -/
theorem init_clears_monitor_for_window_target_witness :
    WindowsCapture.init none none none none none (some 3) none (some 42) =
      Except.ok
        { frame_handler := none, closed_handler := none, cursor_capture := none
          draw_border := none, secondary_window := none, minimum_update_interval := none
          dirty_region := none, monitor_index := none, window_name := none
          window_hwnd := some 42 } :=
  init_clears_monitor_for_window_target none none none none none (some 3) none (some 42)
    (Or.inr rfl)

/-! ### C4 — `crop` performs no bounds validation -/

/-- C4 (counterexample): cropping with `x1 ≤ x0` (here `x0 = 2, x1 = 1` on
a 4×4 frame) does not fail: `crop` returns a new `Frame` whose rows are
empty and whose stored width is the negative Python difference `x1 - x0`. -/
theorem crop_invalid_bounds_no_error :
    Frame.crop sample4x4 2 0 1 1 =
      { frame_buffer := [[]], width := -1, height := 1, timespan := 7 } := by
  decide

/-- C4 (amended): `crop` validates nothing.  For any bounds it returns a
new envelope built by clamped slicing, with `width = x1 - x0` and
`height = y1 - y0` as (possibly nonpositive) integers and the timestamp
preserved; in particular when `x1 ≤ x0` every row of the result is empty.
The source frame, an argument of this pure function, is never modified. -/
theorem crop_clamps_no_validation (f : Frame) (x0 y0 x1 y1 : ℕ) (hx : x1 ≤ x0) :
    (Frame.crop f x0 y0 x1 y1).width = (x1 : ℤ) - (x0 : ℤ) ∧
    (Frame.crop f x0 y0 x1 y1).height = (y1 : ℤ) - (y0 : ℤ) ∧
    (Frame.crop f x0 y0 x1 y1).timespan = f.timespan ∧
    ∀ row ∈ (Frame.crop f x0 y0 x1 y1).frame_buffer, row = [] := by
  refine ⟨rfl, rfl, rfl, fun row hrow => ?_⟩
  simp only [Frame.crop, List.mem_map] at hrow
  obtain ⟨src, _, hsrc⟩ := hrow
  rw [← hsrc]
  simp [pySlice, Nat.sub_eq_zero_of_le hx]

/-- Witness for C4's amended claim at the counterexample input. -/
theorem crop_clamps_no_validation_witness :
    (Frame.crop sample4x4 2 0 1 1).width = -1 ∧
    (Frame.crop sample4x4 2 0 1 1).height = 1 ∧
    (Frame.crop sample4x4 2 0 1 1).timespan = 7 := by
  have h := crop_clamps_no_validation sample4x4 2 0 1 1 (by decide)
  exact ⟨h.1.trans (by norm_num), h.2.1.trans (by norm_num),
    h.2.2.1.trans (by decide)⟩

/-! ### C1 — double dispatch for padded-stride frames -/

/-- C1 (code bug): for a frame whose `row_pitch` exceeds `width * 4`
(here `width = height = 1`, `buf_len = 8`, so `row_pitch = 8 ≥ 4`),
`on_frame_arrived` invokes the registered `frame_handler` twice with the
same `Frame`, not exactly once as specified. -/
theorem onFrameArrived_double_dispatch :
    1 * 4 ≤ 8 / 1 ∧
    WindowsCapture.onFrameArrived handlersSet [1, 2, 3, 4, 5, 6, 7, 8] 8 1 1 0 =
      Except.ok
        [{ frame_buffer := [[[1, 2, 3, 4]]], width := 1, height := 1, timespan := 0 },
         { frame_buffer := [[[1, 2, 3, 4]]], width := 1, height := 1, timespan := 0 }] := by
  exact ⟨by norm_num, rfl⟩

/-! ### C3 — `to_bytes` copies the raw buffer, padding included -/

/-- C3 (counterexample): on a 1×1 frame with `bytes_per_row = 8` and
`bytes_per_pixel = 4`, `to_bytes` returns all 8 raw bytes — the 4 pad
bytes are not stripped, so the length is not
`height * width * bytes_per_pixel`. -/
theorem to_bytes_keeps_padding :
    DxgiDuplicationFrame.to_bytes padFrame = [1, 2, 3, 4, 9, 9, 9, 9] ∧
    padFrame.height * padFrame.width * padFrame.bytes_per_pixel = 4 ∧
    (DxgiDuplicationFrame.to_bytes padFrame).length ≠
      padFrame.height * padFrame.width * padFrame.bytes_per_pixel := by
  decide

/-- C3 (amended): `to_bytes` materializes a contiguous owned copy of the
full raw buffer, row padding included — exactly
`height * bytes_per_row` bytes, equal to the raw buffer itself.  Only when
`bytes_per_row = width * bytes_per_pixel` (no padding) does the length
equal `height * width * bytes_per_pixel`, and in that case rebuilding a
frame from those bytes with `bytes_per_row = width * bytes_per_pixel`
reproduces the identical pixel rows. -/
theorem to_bytes_raw_copy (f : DxgiDuplicationFrame)
    (hlen : f.buffer.length = f.height * f.bytes_per_row) :
    DxgiDuplicationFrame.to_bytes f = f.buffer ∧
    (DxgiDuplicationFrame.to_bytes f).length = f.height * f.bytes_per_row ∧
    (f.bytes_per_row = f.width * f.bytes_per_pixel →
      DxgiDuplicationFrame.exposedRows
        { buffer := DxgiDuplicationFrame.to_bytes f, width := f.width, height := f.height
          bytes_per_pixel := f.bytes_per_pixel
          bytes_per_row := f.width * f.bytes_per_pixel
          color_format := f.color_format } =
      DxgiDuplicationFrame.exposedRows f) := by
  have hb : DxgiDuplicationFrame.to_bytes f = f.buffer :=
    chunkRows_flatten f.height f.bytes_per_row f.buffer hlen
  refine ⟨hb, by rw [hb, hlen], fun hc => ?_⟩
  simp [DxgiDuplicationFrame.exposedRows, DxgiDuplicationFrame.rawBuffer, hb, ← hc]

/-- Witness for C3's amended claim on a contiguous 1×2 frame. -/
theorem to_bytes_raw_copy_witness :
    DxgiDuplicationFrame.to_bytes contigFrame = [1, 2, 3, 4, 5, 6, 7, 8] ∧
    (DxgiDuplicationFrame.to_bytes contigFrame).length = 8 := by
  have h := to_bytes_raw_copy contigFrame (by decide)
  exact ⟨h.1.trans (by decide), h.2.1.trans (by decide)⟩

/-! ### C6 — row truncation strips exactly the pad bytes -/

/-- C6: for any frame with `bytes_per_row ≥ width * bytes_per_pixel` and a
full raw buffer, the rows exposed by `to_numpy`'s truncation contain
exactly `width * bytes_per_pixel` bytes each, equal to the source row with
its trailing pad bytes removed, and byte `c` of exposed row `r` is byte
`r * bytes_per_row + c` of the source buffer — pad bytes are never
exposed. -/
theorem exposedRows_strips_pad (f : DxgiDuplicationFrame)
    (hstride : f.width * f.bytes_per_pixel ≤ f.bytes_per_row)
    (hlen : f.buffer.length = f.height * f.bytes_per_row) :
    (DxgiDuplicationFrame.exposedRows f).length = f.height ∧
    ∀ r, r < f.height →
      (DxgiDuplicationFrame.exposedRows f)[r]? =
        some (((f.buffer.drop (r * f.bytes_per_row)).take f.bytes_per_row).take
          (f.width * f.bytes_per_pixel)) ∧
      ∀ row, (DxgiDuplicationFrame.exposedRows f)[r]? = some row →
        row.length = f.width * f.bytes_per_pixel ∧
        ∀ c, c < f.width * f.bytes_per_pixel →
          row[c]? = f.buffer[r * f.bytes_per_row + c]? := by
  refine ⟨?_, fun r hr => ?_⟩
  · simp [DxgiDuplicationFrame.exposedRows, DxgiDuplicationFrame.rawBuffer, chunkRows_length]
  have hrow : (DxgiDuplicationFrame.exposedRows f)[r]? =
      some (((f.buffer.drop (r * f.bytes_per_row)).take f.bytes_per_row).take
        (f.width * f.bytes_per_pixel)) := by
    simp [DxgiDuplicationFrame.exposedRows, DxgiDuplicationFrame.rawBuffer,
      List.getElem?_map, chunkRows_getElem? f.height f.bytes_per_row f.buffer r hr]
  have hdroplen : f.width * f.bytes_per_pixel ≤
      (f.buffer.drop (r * f.bytes_per_row)).length := by
    have hadd : r * f.bytes_per_row + f.bytes_per_row ≤ f.buffer.length := by
      rw [hlen, ← Nat.succ_mul]
      exact Nat.mul_le_mul_right f.bytes_per_row hr
    rw [List.length_drop]
    have h1 : f.bytes_per_row ≤ f.buffer.length - r * f.bytes_per_row :=
      Nat.le_sub_of_add_le (by omega)
    omega
  have hsimp : ((f.buffer.drop (r * f.bytes_per_row)).take f.bytes_per_row).take
      (f.width * f.bytes_per_pixel) =
      (f.buffer.drop (r * f.bytes_per_row)).take (f.width * f.bytes_per_pixel) := by
    rw [List.take_take, min_eq_left hstride]
  refine ⟨hrow, fun row hrow' => ?_⟩
  rw [hrow] at hrow'
  have hreq : row = (f.buffer.drop (r * f.bytes_per_row)).take
      (f.width * f.bytes_per_pixel) := by
    have := hrow'.symm
    rw [hsimp] at this
    exact Option.some_inj.mp this
  subst hreq
  constructor
  · rw [List.length_take, min_eq_left hdroplen]
  · intro c hc
    rw [List.getElem?_take_of_lt hc, List.getElem?_drop]

/-- Witness for C6 on the padded 1×1 frame: one exposed row, holding the
4 payload bytes and none of the pad bytes. -/
theorem exposedRows_strips_pad_witness :
    (DxgiDuplicationFrame.exposedRows padFrame).length = 1 ∧
    (DxgiDuplicationFrame.exposedRows padFrame)[0]? = some [1, 2, 3, 4] := by
  have h := exposedRows_strips_pad padFrame (by decide) (by decide)
  exact ⟨h.1, ((h.2 0 (by decide)).1).trans (by decide)⟩

/-! ### C8 — `crop` with valid bounds -/

/-- C8: for valid bounds `x0 < x1 ≤ width` and `y0 < y1 ≤ height` on a
well-formed frame, `crop` returns a new envelope of width `x1 - x0` and
height `y1 - y0` whose pixel `(0, 0)` is the source's pixel `(y0, x0)`,
with the timestamp preserved; the source frame, an argument of this pure
function, is never modified. -/
theorem crop_valid_bounds (f : Frame) (x0 y0 x1 y1 W H : ℕ)
    (hbuf : f.frame_buffer.length = H)
    (hrows : ∀ row ∈ f.frame_buffer, row.length = W)
    (hx0 : x0 < x1) (hx1 : x1 ≤ W) (hy0 : y0 < y1) (hy1 : y1 ≤ H) :
    (Frame.crop f x0 y0 x1 y1).width = (x1 : ℤ) - (x0 : ℤ) ∧
    (Frame.crop f x0 y0 x1 y1).height = (y1 : ℤ) - (y0 : ℤ) ∧
    (Frame.crop f x0 y0 x1 y1).timespan = f.timespan ∧
    pixelAt (Frame.crop f x0 y0 x1 y1).frame_buffer 0 0 = pixelAt f.frame_buffer y0 x0 := by
  refine ⟨rfl, rfl, rfl, ?_⟩
  have hy0len : y0 < f.frame_buffer.length := by omega
  obtain ⟨row, hrowg⟩ : ∃ row, f.frame_buffer[y0]? = some row :=
    ⟨f.frame_buffer[y0], List.getElem?_eq_getElem hy0len⟩
  have hrowlen : row.length = W := hrows row (List.getElem?_mem hrowg)
  have hx0len : x0 < row.length := by omega
  have hslice0 : (pySlice y0 y1 f.frame_buffer)[0]? = some row := by
    unfold pySlice
    rw [List.getElem?_take_of_lt (by omega : 0 < y1 - y0), List.getElem?_drop]
    simpa using hrowg
  have hcrop0 : (Frame.crop f x0 y0 x1 y1).frame_buffer[0]? =
      some (pySlice x0 x1 row) := by
    show ((pySlice y0 y1 f.frame_buffer).map (pySlice x0 x1))[0]? = _
    rw [List.getElem?_map, hslice0]
    rfl
  have hpix : (pySlice x0 x1 row)[0]? = row[x0]? := by
    unfold pySlice
    rw [List.getElem?_take_of_lt (by omega : 0 < x1 - x0), List.getElem?_drop]
    simp
  simp only [pixelAt, hcrop0, hrowg, Option.bind_some]
  exact hpix

/-- Witness for C8: the spec's example, `crop(1, 1, 3, 3)` on the 4×4
sample frame, gives a 2×2 envelope whose pixel `(0, 0)` is the source's
pixel at row 1, column 1. -/
theorem crop_valid_bounds_witness :
    (Frame.crop sample4x4 1 1 3 3).width = 2 ∧
    (Frame.crop sample4x4 1 1 3 3).height = 2 ∧
    (Frame.crop sample4x4 1 1 3 3).timespan = 7 ∧
    pixelAt (Frame.crop sample4x4 1 1 3 3).frame_buffer 0 0 = some [11, 0, 0, 255] := by
  have h := crop_valid_bounds sample4x4 1 1 3 3 4 4 (by decide) (by decide)
    (by decide) (by decide) (by decide) (by decide)
  exact ⟨h.1.trans (by norm_num), h.2.1.trans (by norm_num), h.2.2.1.trans (by decide),
    h.2.2.2.trans (by decide)⟩

/-! ### C7 — `to_bgr` shape and channel order -/

/-- Lookup after a pixelwise map. -/
theorem pixelAt_map_map (g : α → β) (img : List (List α)) (r c : ℕ) :
    pixelAt (img.map (fun row => row.map g)) r c = (pixelAt img r c).map g := by
  simp only [pixelAt, List.getElem?_map]
  cases img[r]? with
  | none => rfl
  | some row => simp [List.getElem?_map]

/-- C7: `to_bgr` preserves the row count and per-row pixel count and
produces 3-channel pixels in B, G, R order for every source format: a
`bgra8` pixel `[b, g, r, a]` becomes `[b, g, r]` (alpha dropped), an
`rgba8` pixel is permuted to `[p₂, p₁, p₀]`, and an `rgba16f` pixel is
clamped to `[0, 1]`, permuted, scaled by 255 and truncated to 8 bit. -/
theorem to_bgr_shape_and_channels :
    ∀ (fmt : String) (image : List (List (List ℚ))) (r c : ℕ) (p : List ℚ),
      pixelAt image r c = some p → p.length = 4 →
      (DxgiDuplicationFrame.to_bgr fmt image).length = image.length ∧
      (∀ i : ℕ, ((DxgiDuplicationFrame.to_bgr fmt image)[i]?).map List.length =
        (image[i]?).map List.length) ∧
      (∀ q, pixelAt (DxgiDuplicationFrame.to_bgr fmt image) r c = some q →
        q.length = 3) ∧
      (fmt = "bgra8" →
        pixelAt (DxgiDuplicationFrame.to_bgr fmt image) r c =
          some [p.getD 0 0, p.getD 1 0, p.getD 2 0]) ∧
      (fmt = "rgba8" →
        pixelAt (DxgiDuplicationFrame.to_bgr fmt image) r c =
          some [p.getD 2 0, p.getD 1 0, p.getD 0 0]) ∧
      (fmt = "rgba16f" →
        pixelAt (DxgiDuplicationFrame.to_bgr fmt image) r c =
          some [DxgiDuplicationFrame.clampScale (p.getD 2 0),
                DxgiDuplicationFrame.clampScale (p.getD 1 0),
                DxgiDuplicationFrame.clampScale (p.getD 0 0)]) := by
  intro fmt image r c p hp hp4
  have hmap : pixelAt (DxgiDuplicationFrame.to_bgr fmt image) r c =
      some (DxgiDuplicationFrame.bgrPixel fmt p) := by
    show pixelAt (image.map (fun row => row.map (DxgiDuplicationFrame.bgrPixel fmt))) r c = _
    rw [pixelAt_map_map, hp]
    rfl
  obtain ⟨a, b, d, tail, rfl⟩ : ∃ a b d tail, p = a :: b :: d :: tail := by
    rcases p with _ | ⟨a, _ | ⟨b, _ | ⟨d, tail⟩⟩⟩
    · simp at hp4
    · simp at hp4
    · simp at hp4
    · exact ⟨a, b, d, tail, rfl⟩
  refine ⟨by simp [DxgiDuplicationFrame.to_bgr], ?_, ?_, ?_, ?_, ?_⟩
  · intro i
    simp only [DxgiDuplicationFrame.to_bgr, List.getElem?_map]
    cases image[i]? with
    | none => rfl
    | some row => simp
  · intro q hq
    rw [hmap] at hq
    have hqe : q = DxgiDuplicationFrame.bgrPixel fmt (a :: b :: d :: tail) :=
      (Option.some_inj.mp hq).symm
    subst hqe
    unfold DxgiDuplicationFrame.bgrPixel
    split_ifs <;> simp [List.length_take]
  · intro he
    rw [hmap, he]
    simp [DxgiDuplicationFrame.bgrPixel, List.getD]
  · intro he
    rw [hmap, he]
    simp [DxgiDuplicationFrame.bgrPixel]
  · intro he
    rw [hmap, he]
    simp [DxgiDuplicationFrame.bgrPixel]

/-- Witness for C7: the spec's example — a 2×2 `bgra8` frame whose every
pixel is stored as bytes `(0, 0, 255, 255)` converts to a 2×2 grid whose
every pixel is `(0, 0, 255)`. -/
theorem to_bgr_shape_and_channels_witness :
    pixelAt (DxgiDuplicationFrame.to_bgr "bgra8" img2x2) 0 0 = some [0, 0, 255] ∧
    pixelAt (DxgiDuplicationFrame.to_bgr "bgra8" img2x2) 0 1 = some [0, 0, 255] ∧
    pixelAt (DxgiDuplicationFrame.to_bgr "bgra8" img2x2) 1 0 = some [0, 0, 255] ∧
    pixelAt (DxgiDuplicationFrame.to_bgr "bgra8" img2x2) 1 1 = some [0, 0, 255] ∧
    (DxgiDuplicationFrame.to_bgr "bgra8" img2x2).length = 2 :=
  ⟨(to_bgr_shape_and_channels "bgra8" img2x2 0 0 [0, 0, 255, 255] rfl rfl).2.2.2.1 rfl,
   (to_bgr_shape_and_channels "bgra8" img2x2 0 1 [0, 0, 255, 255] rfl rfl).2.2.2.1 rfl,
   (to_bgr_shape_and_channels "bgra8" img2x2 1 0 [0, 0, 255, 255] rfl rfl).2.2.2.1 rfl,
   (to_bgr_shape_and_channels "bgra8" img2x2 1 1 [0, 0, 255, 255] rfl rfl).2.2.2.1 rfl,
   (to_bgr_shape_and_channels "bgra8" img2x2 0 0 [0, 0, 255, 255] rfl rfl).1⟩

end WindowsCaptureSpec
